import Mathlib

/-!
Verification of the hicrep-wistan core: the template composer
(`format_hicrep` in `hicrep_wistan/__main__.py`) and the score reducer
(`get_scc_scores` in `hicrep_wistan/scc_scores.py`, together with the
`statistics.mean` call in `hicrep_wistan/scc_mean.py`).

Python strings are embedded as `List Char` (ASCII fragment: the model of
Python's `float` conversion covers the ASCII grammar — ASCII whitespace,
ASCII digits with underscore grouping, the case-insensitive tokens
`inf` / `infinity` / `nan` — which is the full behaviour on the ASCII
inputs the pipeline deals in).  Python floats are embedded as `PyFloat`:
finite values are exact rationals (IEEE representation rounding is
abstracted away), plus the special values `posInf`, `negInf`, `nan`.
-/

/-- Result of one Python `float(...)` conversion: a finite value (modelled
exactly as a rational), a signed infinity, or a NaN. -/
inductive PyFloat where
  | finite (q : ℚ)
  | posInf
  | negInf
  | nan
deriving DecidableEq

/-- The Python exceptions that can arise in `get_scc_scores`. -/
inductive PyExc where
  | valueError
  | typeError
deriving DecidableEq

/-- Python `str.split(sep)` for a one-character separator: on the empty
string it returns `[""]`, exactly as in Python. -/
def pySplit (sep : Char) : List Char → List (List Char)
  | [] => [[]]
  | c :: rest =>
    if c = sep then [] :: pySplit sep rest
    else
      match pySplit sep rest with
      | [] => [[c]]
      | l :: ls => (c :: l) :: ls

/-- ASCII whitespace, as stripped by Python `float` before parsing. -/
def isPyWs (c : Char) : Bool :=
  c = ' ' || c = '\t' || c = '\n' || c = '\r' || c = '\x0b' || c = '\x0c'

/-- Strip leading and trailing whitespace (Python `float` does this first). -/
def stripWs (l : List Char) : List Char :=
  ((l.dropWhile isPyWs).reverse.dropWhile isPyWs).reverse

/-- Consume one optional leading sign; returns (is-negative, rest). -/
def splitSign : List Char → Bool × List Char
  | '+' :: r => (false, r)
  | '-' :: r => (true, r)
  | l => (false, l)

/-- Automaton step for Python's `digitpart ::= digit (["_"] digit)*`:
state 0 = start, 1 = after a digit (accepting), 2 = after an underscore,
3 = reject. -/
def dpStep (s : Nat) (c : Char) : Nat :=
  if s = 0 then (if c.isDigit then 1 else 3)
  else if s = 1 then (if c.isDigit then 1 else if c = '_' then 2 else 3)
  else if s = 2 then (if c.isDigit then 1 else 3)
  else 3

/-- Does `l` match Python's `digitpart` (nonempty digits, underscores only
between digits)? -/
def digitpartOk (l : List Char) : Bool :=
  List.foldl dpStep 0 l == 1

/-- Numeric value of a digitpart (underscores ignored). -/
def dpVal (l : List Char) : Nat :=
  List.foldl (fun a c => 10 * a + (c.toNat - 48)) 0 (l.filter Char.isDigit)

/-- Number of actual digits in a digitpart (underscores ignored). -/
def dpLen (l : List Char) : Nat :=
  (l.filter Char.isDigit).length

/-- Parse Python's mantissa `digitpart | digitpart "." [digitpart] |
"." digitpart` into an exact rational. -/
def parseMantissa (l : List Char) : Option ℚ :=
  match pySplit ('.') l with
  | [ip] => if digitpartOk ip then some (dpVal ip) else none
  | [ip, fp] =>
    if digitpartOk ip then
      if fp = [] then some (dpVal ip)
      else if digitpartOk fp then
        some ((dpVal ip : ℚ) + (dpVal fp : ℚ) / (10 : ℚ) ^ dpLen fp)
      else none
    else if ip = [] && digitpartOk fp then
      some ((dpVal fp : ℚ) / (10 : ℚ) ^ dpLen fp)
    else none
  | _ => none

/-- Parse Python's exponent body `["+" | "-"] digitpart` into an integer. -/
def parseExp (l : List Char) : Option ℤ :=
  let sr := splitSign l
  if digitpartOk sr.2 then
    some ((if sr.1 then -1 else 1) * (dpVal sr.2 : ℤ))
  else none

/-- Parse a (lower-cased, sign-stripped) decimal float body:
`mantissa ["e" exponent]`. -/
def parseDecimal (l : List Char) : Option ℚ :=
  match pySplit ('e') l with
  | [m] => parseMantissa m
  | [m, ex] =>
    match parseMantissa m, parseExp ex with
    | some q, some z => some (q * (10 : ℚ) ^ z)
    | _, _ => none
  | _ => none

/-- Model of Python's `float(line)` conversion on ASCII input: strip
surrounding whitespace, take an optional sign, then accept the
case-insensitive tokens `inf` / `infinity` / `nan` or a decimal literal
with optional fraction, exponent and underscore digit grouping.
`none` models the `ValueError` raised on any other input. -/
def pyfloat (line : List Char) : Option PyFloat :=
  let s := stripWs line
  let sr := splitSign s
  let body := sr.2.map Char.toLower
  if body = "inf".data || body = "infinity".data then
    some (if sr.1 then PyFloat.negInf else PyFloat.posInf)
  else if body = "nan".data then
    some PyFloat.nan
  else
    match parseDecimal body with
    | some q => some (PyFloat.finite (if sr.1 then -q else q))
    | none => none

/-- The body of the `for line in lines` loop of `get_scc_scores`:
`try: scc_scores.append(float(line)) except ValueError: continue`,
with the exception already resolved to an `Option`. -/
def loopStep (acc : List PyFloat) (line : List Char) : List PyFloat :=
  match pyfloat line with
  | some v => acc ++ [v]
  | none => acc

/-- `get_scc_scores` from `hicrep_wistan/scc_scores.py`: split the raw text
on the newline character and accumulate the `float`-parsable lines. -/
def get_scc_scores (raw : List Char) : List PyFloat :=
  List.foldl loopStep [] (pySplit ('\n') raw)

/-- Python's `float(line)` as an exception-typed computation: `ValueError`
on parse failure (the only exception `float` raises on a string). -/
def pyfloat_exc (line : List Char) : Except PyExc PyFloat :=
  match pyfloat line with
  | some v => Except.ok v
  | none => Except.error PyExc.valueError

/-- Loop body of `get_scc_scores` with the try/except modelled explicitly:
a `ValueError` from the `float` call is caught (`continue`); any other
exception would propagate. -/
def loopStepExc (acc : List PyFloat) (line : List Char) :
    Except PyExc (List PyFloat) :=
  match pyfloat_exc line with
  | Except.ok v => Except.ok (acc ++ [v])
  | Except.error PyExc.valueError => Except.ok acc
  | Except.error e => Except.error e

/-- `get_scc_scores` in the exception monad: the result is `Except.error e`
exactly when an uncaught exception would escape the Python function. -/
def get_scc_scores_exc (raw : List Char) : Except PyExc (List PyFloat) :=
  List.foldlM loopStepExc [] (pySplit ('\n') raw)

/-- The finite value carried by a `PyFloat` (0 for the special values). -/
def finVal : PyFloat → ℚ
  | PyFloat.finite q => q
  | _ => 0

/-- Is this `PyFloat` a finite value? -/
def PyFloat.isFinite : PyFloat → Bool
  | PyFloat.finite _ => true
  | _ => false

/-- Is this `PyFloat` a NaN? -/
def PyFloat.isNan : PyFloat → Bool
  | PyFloat.nan => true
  | _ => false

/-- Is this `PyFloat` positive infinity? -/
def PyFloat.isPosInf : PyFloat → Bool
  | PyFloat.posInf => true
  | _ => false

/-- Is this `PyFloat` negative infinity? -/
def PyFloat.isNegInf : PyFloat → Bool
  | PyFloat.negInf => true
  | _ => false

/-- Model of `statistics.mean` over `PyFloat`: `none` models the
`StatisticsError` ("mean requires at least one data point") raised on an
empty list; special values propagate the way `statistics._sum` adds them
as IEEE floats (any NaN gives NaN, infinities of both signs give NaN,
otherwise an infinity wins); an all-finite list gives the exact rational
mean (`statistics.mean` sums exactly via `Fraction`; the final rounding
to a binary float is abstracted away). -/
def pymean (l : List PyFloat) : Option PyFloat :=
  if l.isEmpty then none
  else if l.any PyFloat.isNan then some PyFloat.nan
  else if l.any PyFloat.isPosInf && l.any PyFloat.isNegInf then some PyFloat.nan
  else if l.any PyFloat.isPosInf then some PyFloat.posInf
  else if l.any PyFloat.isNegInf then some PyFloat.negInf
  else some (PyFloat.finite ((List.map finVal l).sum / (l.length : ℚ)))

/-- The whole `scc_mean` stage (`hicrep_wistan/scc_mean.py` main block):
`mean(get_scc_scores(stdin.read()))`; `none` is the uncaught
`StatisticsError` propagating out of the process. -/
def scc_mean_run (raw : List Char) : Option PyFloat :=
  pymean (get_scc_scores raw)

/-- Modelled from the spec: the mantissa of a "standard numeric literal" —
digits, optionally around one decimal point, with at least one digit. -/
def specMantissaOk (m : List Char) : Bool :=
  match pySplit ('.') m with
  | [ip] => !ip.isEmpty && ip.all Char.isDigit
  | [ip, fp] =>
    (!ip.isEmpty && ip.all Char.isDigit
      && (fp.isEmpty || fp.all Char.isDigit))
    || (ip.isEmpty && !fp.isEmpty && fp.all Char.isDigit)
  | _ => false

/-- Modelled from the spec: the exponent of a "standard numeric literal" —
an optional sign followed by digits. -/
def specExpOk (ex : List Char) : Bool :=
  let sr := splitSign ex
  !sr.2.isEmpty && sr.2.all Char.isDigit

/-- Modelled from the spec: the "standard numeric-literal rules (optional
sign, digits, optional decimal point, optional exponent)" that the spec
says `extract` uses to accept a line — a plain decimal literal with no
surrounding whitespace, no underscore grouping and no `inf`/`nan` tokens.
Used only to compare the spec's acceptance predicate with the code's. -/
def specNumericOk (l : List Char) : Bool :=
  let sr := splitSign l
  let body := sr.2.map Char.toLower
  match pySplit ('e') body with
  | [m] => specMantissaOk m
  | [m, ex] => specMantissaOk m && specExpOk ex
  | _ => false

/-- Python `' '.join(...)`: concatenate with a single space between
consecutive pieces (empty pieces still get separators). -/
def joinSp : List (List Char) → List Char
  | [] => []
  | [s] => s
  | s :: rest => s ++ ' ' :: joinSp rest

/-- The post-process resolution block of `format_hicrep`
(`hicrep_wistan/__main__.py` lines 11-18): `None` and the empty string
resolve to no stage; the reserved tokens `"scc-mean"` and `"scc-scores"`
(the spec's "reduce-to-mean" / "list-scores" directives) resolve to the
internal mean / score-listing invocations; any other non-empty string `S`
resolves to the pipe stage `"| S"`. -/
def resolveProcess : Option (List Char) → List Char
  | none => []
  | some p =>
    if p = "scc-mean".data then "| python -m vs_hicrep.scc_mean".data
    else if p = "scc-scores".data then "| python -m vs_hicrep.scc_scores".data
    else if p ≠ [] then '|' :: ' ' :: p
    else p

/-- `format_hicrep` from `hicrep_wistan/__main__.py` (the spec's
`compose`): `None` parameters give the empty string; otherwise the
space-join of the tool invocation `"hicrep {1} {2}"` with the output path,
the parameters, the stderr silencer `" 2> /dev/null"`, the optional
read-back `"; cat <out>"`, and the resolved post-process stage. -/
def format_hicrep (hicrep_args : Option (List Char)) (hicrep_out : List Char)
    (read : Bool) (process : Option (List Char)) : List Char :=
  match hicrep_args with
  | none => []
  | some args =>
    joinSp [joinSp ["hicrep {1} {2}".data, hicrep_out], args,
            " 2> /dev/null".data,
            if read then "; cat ".data ++ hicrep_out else [],
            resolveProcess process]

/-- Number of occurrences of `pat` as a (possibly overlapping) substring:
the number of positions at which `pat` starts. -/
def countSubstr (pat : List Char) : List Char → Nat
  | [] => if ([] : List Char).take pat.length = pat then 1 else 0
  | c :: rest =>
    (if (c :: rest).take pat.length = pat then 1 else 0) + countSubstr pat rest

/-! Helper lemmas -/

/-- Unfolding equation for `countSubstr` on a cons cell. -/
lemma countSubstr_cons (pat : List Char) (c : Char) (l : List Char) :
    countSubstr pat (c :: l) =
      (if (c :: l).take pat.length = pat then 1 else 0) + countSubstr pat l :=
  rfl

/-- A nonempty pattern never occurs in the empty string. -/
lemma countSubstr_nil {pat : List Char} (hp : pat ≠ []) :
    countSubstr pat [] = 0 := by
  simp only [countSubstr, List.take_nil]
  rw [if_neg]
  exact fun h => hp h.symm

/-- A pattern that avoids the character `c` starts at a position of
`x ++ c :: y` exactly when it starts at that position of `x`. -/
lemma take_eq_pat_sep {pat : List Char} {c : Char} (_hp : pat ≠ [])
    (hc : c ∉ pat) (x y : List Char) :
    ((x ++ c :: y).take pat.length = pat) ↔ (x.take pat.length = pat) := by
  rcases le_or_lt pat.length x.length with h | h
  · rw [List.take_append_of_le_length h]
  · constructor
    · intro he
      exfalso
      apply hc
      rw [List.take_append_eq_append_take] at he
      have hpos : 0 < pat.length - x.length := Nat.sub_pos_of_lt h
      obtain ⟨m, hm⟩ :=
        Nat.exists_eq_succ_of_ne_zero (Nat.pos_iff_ne_zero.mp hpos)
      rw [hm, List.take_succ_cons] at he
      rw [← he]
      exact List.mem_append.mpr (Or.inr (List.mem_cons_self _ _))
    · intro he
      exfalso
      have hlen := congrArg List.length he
      simp only [List.length_take] at hlen
      omega

/-- Occurrences of a pattern that avoids `c` split additively across a
separator occurrence of `c`. -/
lemma countSubstr_sep {pat : List Char} {c : Char} (hp : pat ≠ [])
    (hc : c ∉ pat) :
    ∀ x y : List Char,
      countSubstr pat (x ++ c :: y) = countSubstr pat x + countSubstr pat y
  | [], y => by
    rw [List.nil_append, countSubstr_nil hp, Nat.zero_add, countSubstr_cons]
    rw [if_neg, Nat.zero_add]
    intro he
    have h2 := (take_eq_pat_sep hp hc [] y).mp (by simpa using he)
    rw [List.take_nil] at h2
    exact hp h2.symm
  | a :: x, y => by
    rw [List.cons_append, countSubstr_cons, countSubstr_sep hp hc x y]
    have hiff := take_eq_pat_sep hp hc (a :: x) y
    rw [List.cons_append] at hiff
    rw [countSubstr_cons pat a x]
    simp only [hiff]
    omega

/-- Cons form of `countSubstr_sep`: a leading separator character does not
contribute any occurrence. -/
lemma countSubstr_cons_sep {pat : List Char} {c : Char} (hp : pat ≠ [])
    (hc : c ∉ pat) (y : List Char) :
    countSubstr pat (c :: y) = countSubstr pat y := by
  have h := countSubstr_sep hp hc [] y
  rw [List.nil_append, countSubstr_nil hp, Nat.zero_add] at h
  exact h

/-- The accumulator-passing loop of `get_scc_scores` computes a
`filterMap` over `pyfloat`. -/
lemma foldl_loopStep_eq :
    ∀ (lines : List (List Char)) (acc : List PyFloat),
      List.foldl loopStep acc lines = acc ++ List.filterMap pyfloat lines
  | [], acc => by simp
  | line :: rest, acc => by
    rw [List.foldl_cons, foldl_loopStep_eq rest]
    unfold loopStep
    cases h : pyfloat line <;> simp [List.filterMap_cons, h]

/-- The exception-monad form of the loop never escapes with an error: the
only exception raised inside it is the `ValueError` the `except` catches. -/
lemma foldlM_loopStepExc_eq :
    ∀ (lines : List (List Char)) (acc : List PyFloat),
      List.foldlM loopStepExc acc lines =
        Except.ok (List.foldl loopStep acc lines)
  | [], _ => rfl
  | line :: rest, acc => by
    have h : loopStepExc acc line = Except.ok (loopStep acc line) := by
      unfold loopStepExc pyfloat_exc loopStep
      cases pyfloat line <;> rfl
    calc List.foldlM loopStepExc acc (line :: rest)
        = loopStepExc acc line >>= fun s => List.foldlM loopStepExc s rest :=
          rfl
      _ = List.foldlM loopStepExc (loopStep acc line) rest := by rw [h]; rfl
      _ = Except.ok (List.foldl loopStep (loopStep acc line) rest) :=
          foldlM_loopStepExc_eq rest _
      _ = Except.ok (List.foldl loopStep acc (line :: rest)) := by
          rw [List.foldl_cons]

/-- `pymean` of a nonempty list always produces a value. -/
lemma pymean_cons_isSome (a : PyFloat) (t : List PyFloat) :
    (pymean (a :: t)).isSome = true := by
  cases h1 : (a :: t).any PyFloat.isNan <;>
    cases h3 : (a :: t).any PyFloat.isPosInf <;>
      cases h4 : (a :: t).any PyFloat.isNegInf <;>
        simp [pymean, h1, h3, h4]

/-- `pymean` fails exactly on the empty list. -/
lemma pymean_none_iff (l : List PyFloat) : pymean l = none ↔ l = [] := by
  cases l with
  | nil => simp [pymean]
  | cons a t =>
    constructor
    · intro h
      have h2 := pymean_cons_isSome a t
      rw [h] at h2
      simp at h2
    · intro h
      exact absurd h (List.cons_ne_nil a t)

/-- In an all-finite list no element is a NaN. -/
lemma any_isNan_false {l : List PyFloat}
    (hf : l.all PyFloat.isFinite = true) : l.any PyFloat.isNan = false := by
  rw [List.any_eq_false]
  intro x hx
  have h2 := List.all_eq_true.mp hf x hx
  cases x <;> simp_all [PyFloat.isFinite, PyFloat.isNan]

/-- In an all-finite list no element is positive infinity. -/
lemma any_isPosInf_false {l : List PyFloat}
    (hf : l.all PyFloat.isFinite = true) : l.any PyFloat.isPosInf = false := by
  rw [List.any_eq_false]
  intro x hx
  have h2 := List.all_eq_true.mp hf x hx
  cases x <;> simp_all [PyFloat.isFinite, PyFloat.isPosInf]

/-- In an all-finite list no element is negative infinity. -/
lemma any_isNegInf_false {l : List PyFloat}
    (hf : l.all PyFloat.isFinite = true) : l.any PyFloat.isNegInf = false := by
  rw [List.any_eq_false]
  intro x hx
  have h2 := List.all_eq_true.mp hf x hx
  cases x <;> simp_all [PyFloat.isFinite, PyFloat.isNegInf]

/-- On a nonempty list of finite values `pymean` is the exact arithmetic
mean. -/
lemma pymean_all_finite {l : List PyFloat} (hne : l ≠ [])
    (hf : l.all PyFloat.isFinite = true) :
    pymean l =
      some (PyFloat.finite ((List.map finVal l).sum / (l.length : ℚ))) := by
  have h0 : l.isEmpty = false := by
    cases l with
    | nil => exact absurd rfl hne
    | cons a t => rfl
  simp [pymean, h0, any_isNan_false hf, any_isPosInf_false hf,
    any_isNegInf_false hf]

/-- Flattened form of a non-disabled composed command. -/
lemma format_flat (args out : List Char) (read : Bool)
    (proc : Option (List Char)) :
    format_hicrep (some args) out read proc =
      "hicrep {1} {2}".data ++ ' ' :: (out ++ ' ' :: (args ++ ' ' ::
        (" 2> /dev/null".data ++ ' ' ::
          ((if read then "; cat ".data ++ out else []) ++ ' ' ::
            resolveProcess proc)))) := by
  simp [format_hicrep, joinSp, List.append_assoc]

/-- Counting a space-free nonempty pattern in the flattened composed
command reduces to counting it in the fixed literal fragments, provided
the variable fragments contain no occurrence. -/
lemma countSubstr_format {pat : List Char} (hp : pat ≠ []) (hsp : ' ' ∉ pat)
    (args out pr : List Char) (read : Bool)
    (ha : countSubstr pat args = 0) (ho : countSubstr pat out = 0)
    (hr : countSubstr pat pr = 0) :
    countSubstr pat ("hicrep {1} {2}".data ++ ' ' :: (out ++ ' ' :: (args ++ ' ' ::
      (" 2> /dev/null".data ++ ' ' ::
        ((if read then "; cat ".data ++ out else []) ++ ' ' :: pr))))) =
    countSubstr pat ("hicrep {1} {2}".data) +
    countSubstr pat (" 2> /dev/null".data) +
    (if read then countSubstr pat ("; cat".data) else 0) := by
  cases read with
  | true =>
    have c5 : countSubstr pat ("; cat ".data ++ out) =
        countSubstr pat ("; cat".data) + countSubstr pat out :=
      countSubstr_sep hp hsp ("; cat".data) out
    rw [if_pos rfl, if_pos rfl, countSubstr_sep hp hsp,
      countSubstr_sep hp hsp, countSubstr_sep hp hsp,
      countSubstr_sep hp hsp, countSubstr_sep hp hsp, c5, ha, ho, hr]
    omega
  | false =>
    have c5 : countSubstr pat (([] : List Char) ++ ' ' :: pr) =
        countSubstr pat pr := by
      rw [List.nil_append, countSubstr_cons_sep hp hsp]
    rw [if_neg (by simp), if_neg (by simp), countSubstr_sep hp hsp,
      countSubstr_sep hp hsp, countSubstr_sep hp hsp,
      countSubstr_sep hp hsp, c5, ha, ho, hr]
    omega

unseal Rat.add Rat.mul Rat.inv Rat.sub

/-! Claims -/

/-- Claim C1 (counterexample): the claim says `extract` keeps exactly the
lines that parse "under standard numeric-literal rules (optional sign,
digits, optional decimal point, optional exponent)" and discards every
line that fails those rules.  The lines `"inf"` and `" 1.0"` fail those
rules, yet `get_scc_scores` keeps them — Python `float` accepts more than
standard numeric literals. -/
theorem C1_counterexample :
    specNumericOk ("inf".data) = false
    ∧ get_scc_scores ("inf".data) = [PyFloat.posInf]
    ∧ specNumericOk (" 1.0".data) = false
    ∧ get_scc_scores (" 1.0".data) = [PyFloat.finite 1] := by
  refine ⟨by decide, by decide, by decide, by decide⟩

/-- Claim C1 (amended): `extract` splits its input into lines on the
newline character and returns, in order of appearance and without
deduplication, exactly the lines accepted by Python's `float` conversion
(`pyfloat`), silently discarding the rest (including empty and
whitespace-only lines); in particular
`extract("1.0\n2.0\nfoo\n3.0\n") = [1.0, 2.0, 3.0]` and `extract("") = []`. -/
theorem C1_extract_filters_float_lines :
    (∀ raw : List Char,
      get_scc_scores raw = List.filterMap pyfloat (pySplit ('\n') raw))
    ∧ get_scc_scores ("1.0\n2.0\nfoo\n3.0\n".data) =
        [PyFloat.finite 1, PyFloat.finite 2, PyFloat.finite 3]
    ∧ get_scc_scores ([]) = [] := by
  refine ⟨fun raw => ?_, by decide, by decide⟩
  rw [get_scc_scores, foldl_loopStep_eq]
  rw [List.nil_append]

/-- Claim C2: `summarize` (the `statistics.mean` call of `scc_mean.py`)
fails (`none`, modelling the uncaught `StatisticsError` — the spec's
`EmptyInputError`) exactly when the score list is empty, returns the
exact arithmetic mean on a nonempty list of finite scores, and the
failure propagates out of the whole `scc_mean` stage instead of being
coerced to a default value. -/
theorem C2_summarize_mean :
    (∀ l : List PyFloat, pymean l = none ↔ l = [])
    ∧ (∀ l : List PyFloat, l ≠ [] → l.all PyFloat.isFinite = true →
        pymean l =
          some (PyFloat.finite ((List.map finVal l).sum / (l.length : ℚ))))
    ∧ (∀ raw : List Char, scc_mean_run raw = none ↔ get_scc_scores raw = []) :=
  ⟨pymean_none_iff,
   fun _ h1 h2 => pymean_all_finite h1 h2,
   fun raw => pymean_none_iff (get_scc_scores raw)⟩

/-- Witness for C2 at concrete inputs: the mean of `[1.0, 3.0]` is `2.0`,
and the empty list fails. -/
theorem C2_witness :
    pymean [PyFloat.finite 1, PyFloat.finite 3] = some (PyFloat.finite 2)
    ∧ pymean [] = none := by
  constructor
  · have h := C2_summarize_mean.2.1 [PyFloat.finite 1, PyFloat.finite 3]
      (by decide) (by decide)
    rw [h]
    decide
  · exact (C2_summarize_mean.1 []).mpr rfl

/-- Claim C7 (round-trip): whenever `extract` produces at least one score,
`summarize` on that result never fails. -/
theorem C7_roundtrip (raw : List Char)
    (h : 1 ≤ (get_scc_scores raw).length) :
    (pymean (get_scc_scores raw)).isSome = true := by
  have hne : get_scc_scores raw ≠ [] := by
    intro he
    rw [he] at h
    simp at h
  rcases hm : pymean (get_scc_scores raw) with _ | v
  · exact absurd ((pymean_none_iff _).mp hm) hne
  · rfl

/-- Witness for C7 at the concrete input `"1.0"`. -/
theorem C7_witness :
    1 ≤ (get_scc_scores ("1.0".data)).length
    ∧ (pymean (get_scc_scores ("1.0".data))).isSome = true :=
  ⟨by decide, C7_roundtrip ("1.0".data) (by decide)⟩

/-- Claim C9: `extract` is total — in the exception-monad model of
`get_scc_scores`, where the `float` conversion raises `ValueError` on a
bad line and the `except ValueError: continue` inside the loop catches
it, the function returns `Except.ok` on every input string and never
propagates an exception. -/
theorem C9_extract_total (raw : List Char) :
    get_scc_scores_exc raw = Except.ok (get_scc_scores raw) := by
  rw [get_scc_scores_exc, get_scc_scores, foldlM_loopStepExc_eq]

/-- Claim C10: Python `float` acceptance is strictly wider than the
spec's plain numeric-literal rules — lines with surrounding whitespace
and the signed, case-insensitive tokens `inf` / `Infinity` / `nan` all
fail the plain rules yet each contributes one element to the extracted
sequence; and an input containing a `nan` line makes the downstream mean
NaN rather than being discarded. -/
theorem C10_float_accepts_more :
    specNumericOk (" 1.5 ".data) = false
    ∧ specNumericOk ("+inf".data) = false
    ∧ specNumericOk ("-Infinity".data) = false
    ∧ specNumericOk ("NaN".data) = false
    ∧ get_scc_scores (" 1.5 \n+inf\n-Infinity\nNaN".data) =
        [PyFloat.finite (3 / 2), PyFloat.posInf, PyFloat.negInf, PyFloat.nan]
    ∧ pymean (get_scc_scores ("nan\n1.0".data)) = some PyFloat.nan := by
  refine ⟨by decide, by decide, by decide, by decide, by decide, by decide⟩

/-- Claim C3: resolution of the post-process directive in the composer —
the reserved token `"scc-mean"` (the spec's "reduce-to-mean") maps to the
internal summary-statistic invocation, `"scc-scores"` (the spec's
"list-scores") to the internal score-listing invocation, any other
non-empty string `S` becomes the pipe stage `"| S"`, and the empty string
and the absent (`None`) value both yield no post-processing stage, with
the two treated identically by the composer. -/
theorem C3_post_process_resolution :
    resolveProcess (some ("scc-mean".data)) =
      "| python -m vs_hicrep.scc_mean".data
    ∧ resolveProcess (some ("scc-scores".data)) =
      "| python -m vs_hicrep.scc_scores".data
    ∧ resolveProcess none = []
    ∧ resolveProcess (some []) = []
    ∧ (∀ (a : Option (List Char)) (o : List Char) (r : Bool),
        format_hicrep a o r none = format_hicrep a o r (some []))
    ∧ (∀ p : List Char, p ≠ [] → p ≠ "scc-mean".data →
        p ≠ "scc-scores".data → resolveProcess (some p) = '|' :: ' ' :: p) := by
  refine ⟨by decide, by decide, rfl, by decide, ?_, ?_⟩
  · intro a o r
    cases a with
    | none => rfl
    | some args =>
      rw [format_hicrep, format_hicrep,
        show resolveProcess (some ([] : List Char)) = resolveProcess none from
          by decide]
  · intro p hne h1 h2
    rw [resolveProcess, if_neg h1, if_neg h2, if_pos hne]

/-- Witness for C3: a custom non-reserved directive becomes a verbatim
pipe stage. -/
theorem C3_witness :
    resolveProcess (some ("sort -n".data)) = '|' :: ' ' :: "sort -n".data :=
  C3_post_process_resolution.2.2.2.2.2 ("sort -n".data)
    (by decide) (by decide) (by decide)

/-- Claim C4 (counterexample): the claim quantifies over arbitrary strings
for the non-`parameters` arguments, but it also fails for a `parameters`
string that itself contains a placeholder: with `parameters = "{1}"` the
composed command contains `"{1}"` twice, not exactly once. -/
theorem C4_counterexample :
    countSubstr ("{1}".data)
      (format_hicrep (some ("{1}".data)) ("out.txt".data) false none) = 2 := by
  decide

/-- Claim C4 (amended): for every non-null `parameters`, provided the
`parameters`, `output_path_template` and resolved post-process strings
contain no occurrence of `"{1}"` or `"{2}"` themselves, the composed
command is a non-empty string containing each of the literal substrings
`"{1}"` and `"{2}"` exactly once. -/
theorem C4_placeholders_once (args out : List Char) (read : Bool)
    (proc : Option (List Char))
    (h1 : countSubstr ("{1}".data) args = 0)
    (h2 : countSubstr ("{1}".data) out = 0)
    (h3 : countSubstr ("{1}".data) (resolveProcess proc) = 0)
    (h4 : countSubstr ("{2}".data) args = 0)
    (h5 : countSubstr ("{2}".data) out = 0)
    (h6 : countSubstr ("{2}".data) (resolveProcess proc) = 0) :
    format_hicrep (some args) out read proc ≠ []
    ∧ countSubstr ("{1}".data) (format_hicrep (some args) out read proc) = 1
    ∧ countSubstr ("{2}".data) (format_hicrep (some args) out read proc) = 1 := by
  refine ⟨?_, ?_, ?_⟩
  · rw [format_flat]
    simp
  · rw [format_flat,
      countSubstr_format (by decide) (by decide) args out _ read h1 h2 h3]
    cases read <;> decide
  · rw [format_flat,
      countSubstr_format (by decide) (by decide) args out _ read h4 h5 h6]
    cases read <;> decide

/-- Witness for C4 at concrete placeholder-free arguments. -/
theorem C4_witness :
    format_hicrep (some ("--h 1".data)) ("out.txt".data) true
        (some ("scc-mean".data)) ≠ []
    ∧ countSubstr ("{1}".data)
        (format_hicrep (some ("--h 1".data)) ("out.txt".data) true
          (some ("scc-mean".data))) = 1
    ∧ countSubstr ("{2}".data)
        (format_hicrep (some ("--h 1".data)) ("out.txt".data) true
          (some ("scc-mean".data))) = 1 :=
  C4_placeholders_once ("--h 1".data) ("out.txt".data) true
    (some ("scc-mean".data)) (by decide) (by decide) (by decide)
    (by decide) (by decide) (by decide)

/-- Claim C5: for every non-null `parameters` the composed command is the
concatenation, in this fixed order, of: the tool invocation with its
positional file placeholders (`"hicrep {1} {2} "`), the output path
template, the parameters, the stderr-suppressing directive
`" 2> /dev/null"`, then — only if `capture_output` — the read-back
directive `"; cat " ++ out`, then — only if the post-process directive is
non-empty — the resolved pipe stage (all joined by single spaces). -/
theorem C5_compose_order (args out : List Char) (read : Bool)
    (proc : Option (List Char)) :
    format_hicrep (some args) out read proc =
      "hicrep {1} {2} ".data ++ out ++ " ".data ++ args ++ " ".data ++
      " 2> /dev/null".data ++ " ".data ++
      (if read then "; cat ".data ++ out else []) ++ " ".data ++
      resolveProcess proc := by
  rw [format_flat]
  have h1 : "hicrep {1} {2} ".data = "hicrep {1} {2}".data ++ [' '] := rfl
  have h2 : " ".data = ([' '] : List Char) := rfl
  rw [h1, h2]
  simp [List.append_assoc]

/-- Claim C6: a null `parameters` argument makes the composer return the
empty string regardless of the other arguments — the sole region-disabling
mechanism, returned normally rather than raised — while any non-null
`parameters` yields a non-empty command. -/
theorem C6_null_params_disable :
    (∀ (out : List Char) (read : Bool) (proc : Option (List Char)),
      format_hicrep none out read proc = [])
    ∧ (∀ (args out : List Char) (read : Bool) (proc : Option (List Char)),
      format_hicrep (some args) out read proc ≠ []) := by
  refine ⟨fun _ _ _ => rfl, fun args out read proc h => ?_⟩
  rw [format_flat] at h
  simp at h

/-- Witness for C6 at concrete arguments: the null-parameters command is
empty, the non-null one is not. -/
theorem C6_witness :
    format_hicrep none ("o.txt".data) true (some ("scc-mean".data)) = []
    ∧ format_hicrep (some ("--h 1".data)) ("o.txt".data) true
        (some ("scc-mean".data)) ≠ [] :=
  ⟨C6_null_params_disable.1 ("o.txt".data) true (some ("scc-mean".data)),
   C6_null_params_disable.2 ("--h 1".data) ("o.txt".data) true
     (some ("scc-mean".data))⟩

/-- Claim C8: with `parameters`, `output_path_template` and the capture
flag fixed, the commands composed for the `"scc-mean"` and `"scc-scores"`
directives share the identical tool-invocation prefix (everything up to
and including the capture stage and the pipe) and differ only in the
piped sub-command appended after the pipe. -/
theorem C8_directives_share_invocation (args out : List Char) (read : Bool) :
    format_hicrep (some args) out read (some ("scc-mean".data)) =
      (format_hicrep (some args) out read none ++ "| ".data) ++
        "python -m vs_hicrep.scc_mean".data
    ∧ format_hicrep (some args) out read (some ("scc-scores".data)) =
      (format_hicrep (some args) out read none ++ "| ".data) ++
        "python -m vs_hicrep.scc_scores".data := by
  constructor
  · rw [format_flat, format_flat,
      show resolveProcess (some ("scc-mean".data)) =
        "| python -m vs_hicrep.scc_mean".data from by decide,
      show resolveProcess none = [] from rfl,
      show "| python -m vs_hicrep.scc_mean".data =
        '|' :: ' ' :: "python -m vs_hicrep.scc_mean".data from rfl]
    simp
  · rw [format_flat, format_flat,
      show resolveProcess (some ("scc-scores".data)) =
        "| python -m vs_hicrep.scc_scores".data from by decide,
      show resolveProcess none = [] from rfl,
      show "| python -m vs_hicrep.scc_scores".data =
        '|' :: ' ' :: "python -m vs_hicrep.scc_scores".data from rfl]
    simp
